import Mathlib

/-
Verification development for the research-agent control loop (`agent.py`).
The data model, the tool dispatcher (`tool_node`), the router (`route_agent`),
the decision node (`llm_agent_node`), the graph step function and the two
entry points (`run_research_agent`, `run_research_agent_verbose`) are
embedded shallowly; the external decision service is an oracle parameter
indexed by a global call counter, and each tool capability is a function
from its query argument to `Except error output`.
-/

set_option maxRecDepth 8000

namespace Agent

/-- A tool-invocation request emitted by the decision step: one entry of an
assistant message's `tool_calls` (`name`, `args` — the query argument — and
the correlation `id`). -/
structure ToolCall where
  name : String
  args : String
  id : String
  deriving DecidableEq

/-- Conversation entries: `human` (user message; also the shape used for the
system instruction in `llm_agent_node`), `ai` (assistant message carrying its
`tool_calls`), and `tool` (a tool result correlated by `tool_call_id`). -/
inductive Message where
  | human (content : String)
  | ai (content : String) (tool_calls : List ToolCall)
  | tool (content : String) (tool_call_id : String)
  deriving DecidableEq

deriving instance DecidableEq for Except

/-- The `.content` attribute shared by all message kinds. -/
def Message.content : Message → String
  | Message.human c => c
  | Message.ai c _ => c
  | Message.tool c _ => c

/-- `toolResultId m` is `some i` exactly when `m` is a `ToolResult` with
correlation id `i`. -/
def toolResultId : Message → Option String
  | Message.tool _ i => some i
  | _ => none

/-- Source-attribution suffix added by `tool_node` on success
(`agent.py` lines 108-113). -/
def sourceInfo (name : String) : String :=
  if name = "wikipedia" then "\n\nSource: Wikipedia"
  else if name = "duckduckgo_search" then "\n\nSource: Web Search (DuckDuckGo)"
  else "\n\nSource: " ++ name

/-- A tool name resolves against the registry: the two registered tools are
`wikipedia` and `duckduckgo_search`. -/
def registered (c : ToolCall) : Bool :=
  c.name == "wikipedia" || c.name == "duckduckgo_search"

/-- A batch contains a request whose name does not resolve. -/
def hasUnknown (l : List ToolCall) : Bool :=
  l.any (fun c => !(registered c))

/-- The (name, args) pair recorded when a capability is actually invoked. -/
def nameArgs (c : ToolCall) : String × String := (c.name, c.args)

/-- Result of resolving and invoking the capability for one request:
`wikipedia` and `duckduckgo_search` dispatch to their capability; an
unregistered name yields the invalid-tool error description. -/
def capResult (wiki ddg : String → Except String String) (c : ToolCall) :
    Except String String :=
  if c.name = "wikipedia" then wiki c.args
  else if c.name = "duckduckgo_search" then ddg c.args
  else Except.error
    (c.name ++ " is not a valid tool, try one of [wikipedia, duckduckgo_search].")

/-- The per-request result produced on the custom dispatch path of
`tool_node`: successful output gets the source-attribution suffix, a failure
becomes an error-description string (lines 105-124). -/
def execOne (wiki ddg : String → Except String String) (c : ToolCall) : Message :=
  match capResult wiki ddg c with
  | Except.ok out => Message.tool (out ++ sourceInfo c.name) c.id
  | Except.error e => Message.tool ("Error: " ++ e) c.id

/-- Modelled from the spec: the per-request result of the generic fallback
dispatch path (`ToolNode(tools)` of the langgraph library, which is external
to this repository and appears in `agent.py` only as a call at line 102-103).
Per the spec (§4.2, §7) the fallback "still must produce a `ToolResult`" for
every request with 1:1 id correlation; a registered tool is executed with its
arguments and its plain stringified output becomes the content (no custom
attribution suffix — that suffix is added only by this repository's own
dispatch path), and an unregistered name is degraded to a
`ToolExecutionError`-shaped result rather than an exception. -/
def fallbackOne (wiki ddg : String → Except String String) (c : ToolCall) : Message :=
  match capResult wiki ddg c with
  | Except.ok out => Message.tool out c.id
  | Except.error e => Message.tool ("Error: " ++ e) c.id

/-- Modelled from the spec: the generic fallback dispatch path applied to the
whole batch of requests of the last assistant message (see `fallbackOne`). -/
def toolNodeFallback (wiki ddg : String → Except String String)
    (calls : List ToolCall) : List Message :=
  calls.map (fallbackOne wiki ddg)

/-- The capability invocations performed by the fallback path: every
registered tool in the batch is executed, an unregistered name is not. -/
def fallbackTrace (calls : List ToolCall) : List (String × String) :=
  (calls.filter registered).map nameArgs

/-- The request loop of `tool_node` (lines 86-126). `calls` is the full
batch (needed because the fallback at line 103 re-reads the whole state),
`rest` the requests still to process, `outs` the results collected so far and
`tr` the log of capability invocations performed so far. On an unregistered
name the function returns the fallback output for the entire batch,
mirroring the early `return tool_node_fallback.invoke(state)`. -/
def tool_node_go (wiki ddg : String → Except String String) (calls : List ToolCall) :
    List ToolCall → List Message → List (String × String) →
    List Message × List (String × String)
  | [], outs, tr => (outs, tr)
  | c :: rest, outs, tr =>
    if c.name = "wikipedia" then
      match wiki c.args with
      | Except.ok out =>
          tool_node_go wiki ddg calls rest
            (outs ++ [Message.tool (out ++ sourceInfo c.name) c.id])
            (tr ++ [nameArgs c])
      | Except.error e =>
          tool_node_go wiki ddg calls rest
            (outs ++ [Message.tool ("Error: " ++ e) c.id])
            (tr ++ [nameArgs c])
    else if c.name = "duckduckgo_search" then
      match ddg c.args with
      | Except.ok out =>
          tool_node_go wiki ddg calls rest
            (outs ++ [Message.tool (out ++ sourceInfo c.name) c.id])
            (tr ++ [nameArgs c])
      | Except.error e =>
          tool_node_go wiki ddg calls rest
            (outs ++ [Message.tool ("Error: " ++ e) c.id])
            (tr ++ [nameArgs c])
    else
      (toolNodeFallback wiki ddg calls, tr ++ fallbackTrace calls)

/-- The custom tool dispatcher (`tool_node`, lines 78-126) applied to the
`tool_calls` batch of the last assistant message. Returns the produced
`ToolResult` entries together with the log of capability invocations
performed. -/
def tool_node (wiki ddg : String → Except String String) (calls : List ToolCall) :
    List Message × List (String × String) :=
  tool_node_go wiki ddg calls calls [] []

/-- The router's two outcomes: continue to the tool node, or `END`
(`route_agent`, lines 128-138). -/
inductive Route where
  | toToolNode
  | toEND
  deriving DecidableEq

/-- The router (`route_agent`, lines 128-138): reads the last entry of the
conversation; if it has a `tool_calls` attribute (only assistant messages do)
and that list is truthy (non-empty), continue to the tool node, otherwise
`END`. An empty conversation cannot reach the router (the state is seeded
with the user message); it is mapped to `END`. -/
def route_agent (state : List Message) : Route :=
  match state.getLast? with
  | some (Message.ai _ tool_calls) =>
      if tool_calls.isEmpty then Route.toEND else Route.toToolNode
  | _ => Route.toEND

/-- The fixed system instruction prepended by `llm_agent_node` on the very
first call (lines 57-70); it is wrapped in a `HumanMessage` at line 72. -/
def system_prompt : String :=
  "You are a research assistant with access to search tools. \n\nAvailable tools:\n- Wikipedia: Use for encyclopedic information, definitions, historical facts, scientific concepts\n- DuckDuckGo Search: Use for current events, recent news, company updates, breaking news, anything from 2023-2024\n\nALWAYS use the appropriate search tool when asked about:\n- Current events or recent news\n- Company updates or developments  \n- Recent developments in technology\n- What happened in specific years (especially 2023-2024)\n- Any factual information you\x27re not certain about\n\nChoose the most appropriate tool based on the question type."

/-- The message sequence actually passed to the decision service by
`llm_agent_node`: the conversation, prefixed with the system instruction
exactly when the conversation holds a single entry (line 56). -/
def llmInput (messages : List Message) : List Message :=
  if messages.length = 1 then Message.human system_prompt :: messages else messages

/-- The assistant message produced by one decision-service call:
`dfun` stands for `llm_with_tools.invoke`, whose reply is an `AIMessage`
carrying a content string and a `tool_calls` list. -/
def llm_response (dfun : List Message → String × List ToolCall)
    (messages : List Message) : Message :=
  Message.ai (dfun (llmInput messages)).1 (dfun (llmInput messages)).2

/-- The decision node (`llm_agent_node`, lines 49-76): invokes the decision
service on the (possibly prefixed) conversation and returns the singleton
update appended to the state by the graph's reducer `x + y`. -/
def llm_agent_node (dfun : List Message → String × List ToolCall)
    (messages : List Message) : List Message :=
  [llm_response dfun messages]

/-- The graph's nodes, plus the terminal pseudo-node reached through `END`. -/
inductive Node where
  | llm
  | tool
  | done
  deriving DecidableEq

/-- The running state of one graph execution: `decideCalls` counts the
outbound decision-service calls made so far (it is the index into the
decision oracle, making the external service's call-by-call behaviour
explicit), `node` is the node about to run, `messages` the conversation. -/
structure RunState where
  decideCalls : Nat
  node : Node
  messages : List Message
  deriving DecidableEq

/-- The `tool_calls` of the last message, as read by `tool_node` at
lines 82-83 (only assistant messages carry the attribute; the tool node is
only ever entered when the last message is an assistant message). -/
def lastToolCalls (ms : List Message) : List ToolCall :=
  match ms.getLast? with
  | some (Message.ai _ tool_calls) => tool_calls
  | _ => []

/-- One superstep of the compiled graph (lines 142-163): the `llm_agent_node`
runs, its singleton update is appended, and `route_agent` picks the next
node; the `tool_node` runs, its results are appended, and the fixed edge at
line 160 returns to `llm_agent_node`. The oracle `oracle` is indexed by the
global decision-service call counter. -/
def graphStep (oracle : Nat → List Message → String × List ToolCall)
    (wiki ddg : String → Except String String) (s : RunState) : RunState :=
  match s.node with
  | Node.llm =>
      let r := llm_response (oracle s.decideCalls) s.messages
      let ms := s.messages ++ [r]
      match route_agent ms with
      | Route.toToolNode => ⟨s.decideCalls + 1, Node.tool, ms⟩
      | Route.toEND => ⟨s.decideCalls + 1, Node.done, ms⟩
  | Node.tool =>
      ⟨s.decideCalls, Node.llm,
        s.messages ++ (tool_node wiki ddg (lastToolCalls s.messages)).1⟩
  | Node.done => s

/-- `k` supersteps of the graph (the terminal state is a fixed point). -/
def stepN (oracle : Nat → List Message → String × List ToolCall)
    (wiki ddg : String → Except String String) : Nat → RunState → RunState
  | 0, s => s
  | k + 1, s => graphStep oracle wiki ddg (stepN oracle wiki ddg k s)

/-- The initial state of a run on `query` (line 174): the conversation is
seeded with one user message and execution starts at the entry point. -/
def initState (query : String) : RunState :=
  ⟨0, Node.llm, [Message.human query]⟩

/-- One item of `app.stream`: if the graph is finished the generator is
exhausted, otherwise the name of the node that just ran is yielded together
with the state after its superstep. -/
def streamNext (oracle : Nat → List Message → String × List ToolCall)
    (wiki ddg : String → Except String String) (s : RunState) :
    Option (Node × RunState) :=
  if s.node = Node.done then none
  else some (s.node, graphStep oracle wiki ddg s)

/-- The hard-coded `max_steps` of `run_research_agent` (line 177). -/
def max_steps : Nat := 10

/-- The langgraph default `recursion_limit` bounding every `app.stream` /
`app.invoke` execution: exceeding it raises `GraphRecursionError`. -/
def recursionLimit : Nat := 25

/-- Outcome of the streaming phase of `run_research_agent` (lines 176-191):
the yields consumed, the state when consumption stopped, and whether the
maximum-steps warning fired. -/
structure StreamPhase where
  yields : List Node
  st : RunState
  warned : Bool
  deriving DecidableEq

/-- The streaming loop of `run_research_agent` (lines 179-191): `step_count`
starts at 1 and increments once per consumed yield; after consuming a yield,
if the count exceeds `max_steps` the loop warns and breaks. `fuel` is the
number of yields that may still be consumed (initially `max_steps`); the
yield that exhausts it is the one that triggers the warning-break. -/
def nvStream (oracle : Nat → List Message → String × List ToolCall)
    (wiki ddg : String → Except String String) :
    Nat → RunState → StreamPhase
  | 0, s => ⟨[], s, true⟩
  | fuel + 1, s =>
    match streamNext oracle wiki ddg s with
    | none => ⟨[], s, false⟩
    | some (nd, s') =>
      if fuel = 0 then ⟨[nd], s', true⟩
      else
        let r := nvStream oracle wiki ddg fuel s'
        ⟨nd :: r.yields, r.st, r.warned⟩

/-- `app.invoke` run for up to `fuel` supersteps: the final state reached and
whether the graph terminated within the budget (when it did not, langgraph
raises `GraphRecursionError`). -/
def invokeRun (oracle : Nat → List Message → String × List ToolCall)
    (wiki ddg : String → Except String String) :
    Nat → RunState → RunState × Bool
  | 0, s => (s, s.node = Node.done)
  | fuel + 1, s =>
    if s.node = Node.done then (s, true)
    else invokeRun oracle wiki ddg fuel (graphStep oracle wiki ddg s)

/-- The fully-streamed execution of `run_research_agent_verbose`
(lines 209-212): all yields up to the recursion limit and the state the
stream ended in. -/
def vStreamAux (oracle : Nat → List Message → String × List ToolCall)
    (wiki ddg : String → Except String String) :
    Nat → RunState → List Node × RunState
  | 0, s => ([], s)
  | fuel + 1, s =>
    match streamNext oracle wiki ddg s with
    | none => ([], s)
    | some (nd, s') =>
      let r := vStreamAux oracle wiki ddg fuel s'
      (nd :: r.1, r.2)

/-- The `.content` of `final_state["messages"][-1]` (lines 196, 215). -/
def lastMessageContent (ms : List Message) : String :=
  match ms.getLast? with
  | some m => m.content
  | none => ""

/-- The printed outcome of `run_research_agent`: either the final answer
(line 196) or the caught run-level error (line 200). -/
inductive RunOutcome where
  | answer (content : String)
  | runError (msg : String)
  deriving DecidableEq

/-- The observable report of one `run_research_agent` call: the per-step
progress yields of the streaming phase, whether the maximum-steps warning was
printed, the printed outcome, and the total number of decision-service calls
made across both phases. -/
structure NVReport where
  steps : List Node
  warned : Bool
  outcome : RunOutcome
  decideCallsTotal : Nat
  deriving DecidableEq

/-- `run_research_agent` (lines 167-201): stream the execution with the
`max_steps` safety break, then call `app.invoke(initial_state)` afresh —
a second, independent graph execution whose decision-service calls continue
the global call sequence — and print its final answer, catching any
exception it raises. -/
def run_research_agent (oracle : Nat → List Message → String × List ToolCall)
    (wiki ddg : String → Except String String) (query : String) : NVReport :=
  let ph := nvStream oracle wiki ddg max_steps (initState query)
  let inv := invokeRun oracle wiki ddg recursionLimit
    ⟨ph.st.decideCalls, Node.llm, [Message.human query]⟩
  if inv.2 then
    ⟨ph.yields, ph.warned,
      RunOutcome.answer (lastMessageContent inv.1.messages), inv.1.decideCalls⟩
  else
    ⟨ph.yields, ph.warned,
      RunOutcome.runError "Error getting final answer: GraphRecursionError",
      inv.1.decideCalls⟩

/-- The observable report of one successful `run_research_agent_verbose`
call: the yields printed by the streaming phase and the final content
printed afterwards. -/
structure VerboseReport where
  yields : List Node
  finalContent : String
  deriving DecidableEq

/-- `run_research_agent_verbose` (lines 203-215): stream the execution to
exhaustion (an execution that outlives the recursion limit raises an
uncaught `GraphRecursionError`), then call `app.invoke(initial_state)`
afresh — again a second, independent execution — and print its final
message's content; nothing is caught here, so an invoke failure also
escapes as an exception. -/
def run_research_agent_verbose
    (oracle : Nat → List Message → String × List ToolCall)
    (wiki ddg : String → Except String String) (query : String) :
    Except String VerboseReport :=
  let st := vStreamAux oracle wiki ddg recursionLimit (initState query)
  if st.2.node = Node.done then
    let inv := invokeRun oracle wiki ddg recursionLimit
      ⟨st.2.decideCalls, Node.llm, [Message.human query]⟩
    if inv.2 then Except.ok ⟨st.1, lastMessageContent inv.1.messages⟩
    else Except.error "GraphRecursionError"
  else Except.error "GraphRecursionError"

/-! ### Helper lemmas about the tool dispatcher -/

/-- Unfolding lemma for the request loop: as long as no unregistered name is
met, each request contributes `execOne` of itself, in order; the first
unregistered name makes the whole call return the fallback output for the
entire batch, discarding the results accumulated so far. -/
theorem tool_node_go_spec (wiki ddg : String → Except String String)
    (calls : List ToolCall) :
    ∀ (rest : List ToolCall) (outs : List Message) (tr : List (String × String)),
    tool_node_go wiki ddg calls rest outs tr =
      if hasUnknown rest then
        (toolNodeFallback wiki ddg calls,
         tr ++ ((rest.takeWhile registered).map nameArgs ++ fallbackTrace calls))
      else
        (outs ++ rest.map (execOne wiki ddg), tr ++ rest.map nameArgs) := by
  intro rest
  induction rest with
  | nil =>
    intro outs tr
    simp [tool_node_go, hasUnknown]
  | cons c rest ih =>
    intro outs tr
    by_cases hw : c.name = "wikipedia"
    · have hreg : registered c = true := by simp [registered, hw]
      have hhu : hasUnknown (c :: rest) = hasUnknown rest := by
        simp [hasUnknown, List.any_cons, hreg]
      have htw : (c :: rest).takeWhile registered = c :: rest.takeWhile registered := by
        simp [List.takeWhile_cons, hreg]
      cases hwy : wiki c.args with
      | ok out =>
        have he : execOne wiki ddg c = Message.tool (out ++ sourceInfo c.name) c.id := by
          simp [execOne, capResult, hw, hwy]
        rw [show tool_node_go wiki ddg calls (c :: rest) outs tr
            = tool_node_go wiki ddg calls rest
                (outs ++ [Message.tool (out ++ sourceInfo c.name) c.id])
                (tr ++ [nameArgs c]) by simp [tool_node_go, hw, hwy]]
        rw [ih, hhu, htw]
        split <;> simp [he]
      | error e =>
        have he : execOne wiki ddg c = Message.tool ("Error: " ++ e) c.id := by
          simp [execOne, capResult, hw, hwy]
        rw [show tool_node_go wiki ddg calls (c :: rest) outs tr
            = tool_node_go wiki ddg calls rest
                (outs ++ [Message.tool ("Error: " ++ e) c.id])
                (tr ++ [nameArgs c]) by simp [tool_node_go, hw, hwy]]
        rw [ih, hhu, htw]
        split <;> simp [he]
    · by_cases hd : c.name = "duckduckgo_search"
      · have hreg : registered c = true := by simp [registered, hd]
        have hhu : hasUnknown (c :: rest) = hasUnknown rest := by
          simp [hasUnknown, List.any_cons, hreg]
        have htw : (c :: rest).takeWhile registered = c :: rest.takeWhile registered := by
          simp [List.takeWhile_cons, hreg]
        cases hdy : ddg c.args with
        | ok out =>
          have he : execOne wiki ddg c = Message.tool (out ++ sourceInfo c.name) c.id := by
            simp [execOne, capResult, hw, hd, hdy]
          rw [show tool_node_go wiki ddg calls (c :: rest) outs tr
              = tool_node_go wiki ddg calls rest
                  (outs ++ [Message.tool (out ++ sourceInfo c.name) c.id])
                  (tr ++ [nameArgs c]) by simp [tool_node_go, hw, hd, hdy]]
          rw [ih, hhu, htw]
          split <;> simp [he]
        | error e =>
          have he : execOne wiki ddg c = Message.tool ("Error: " ++ e) c.id := by
            simp [execOne, capResult, hw, hd, hdy]
          rw [show tool_node_go wiki ddg calls (c :: rest) outs tr
              = tool_node_go wiki ddg calls rest
                  (outs ++ [Message.tool ("Error: " ++ e) c.id])
                  (tr ++ [nameArgs c]) by simp [tool_node_go, hw, hd, hdy]]
          rw [ih, hhu, htw]
          split <;> simp [he]
      · have hreg : registered c = false := by simp [registered, hw, hd]
        have hhu : hasUnknown (c :: rest) = true := by
          simp [hasUnknown, List.any_cons, hreg]
        have htw : (c :: rest).takeWhile registered = [] := by
          simp [List.takeWhile_cons, hreg]
        rw [show tool_node_go wiki ddg calls (c :: rest) outs tr
            = (toolNodeFallback wiki ddg calls, tr ++ fallbackTrace calls)
            by simp [tool_node_go, hw, hd]]
        rw [hhu, htw]
        simp

/-- The dispatcher on a whole batch: per-request results when every name
resolves, the fallback output for the whole batch otherwise. -/
theorem tool_node_spec (wiki ddg : String → Except String String)
    (calls : List ToolCall) :
    tool_node wiki ddg calls =
      if hasUnknown calls then
        (toolNodeFallback wiki ddg calls,
         (calls.takeWhile registered).map nameArgs ++ fallbackTrace calls)
      else
        (calls.map (execOne wiki ddg), calls.map nameArgs) := by
  unfold tool_node
  rw [tool_node_go_spec]
  split <;> simp

/-- Every per-request result of the custom path is a `ToolResult` carrying
the request's id. -/
theorem toolResultId_execOne (wiki ddg : String → Except String String)
    (c : ToolCall) : toolResultId (execOne wiki ddg c) = some c.id := by
  unfold execOne
  cases capResult wiki ddg c <;> simp [toolResultId]

/-- Every per-request result of the fallback path is a `ToolResult` carrying
the request's id. -/
theorem toolResultId_fallbackOne (wiki ddg : String → Except String String)
    (c : ToolCall) : toolResultId (fallbackOne wiki ddg c) = some c.id := by
  unfold fallbackOne
  cases capResult wiki ddg c <;> simp [toolResultId]

/-- The ids of the dispatcher's results are exactly the ids of the requests,
in the same order (hence also: one result per request, all of them
`ToolResult` entries). -/
theorem tool_node_ids (wiki ddg : String → Except String String)
    (calls : List ToolCall) :
    ((tool_node wiki ddg calls).1).map toolResultId
      = calls.map (fun c => some c.id) := by
  rw [tool_node_spec]
  split
  · simp only [toolNodeFallback, List.map_map]
    exact List.map_congr_left fun c _ => toolResultId_fallbackOne wiki ddg c
  · simp only [List.map_map]
    exact List.map_congr_left fun c _ => toolResultId_execOne wiki ddg c

/-- The dispatcher produces exactly as many results as there are requests. -/
theorem tool_node_length (wiki ddg : String → Except String String)
    (calls : List ToolCall) :
    ((tool_node wiki ddg calls).1).length = calls.length := by
  have h := congrArg List.length (tool_node_ids wiki ddg calls)
  simpa using h

/-! ### Helper lemmas about the graph -/

/-- The router only looks at the last entry. -/
theorem route_agent_concat (ms : List Message) (m : Message) :
    route_agent (ms ++ [m]) = route_agent [m] := by
  simp [route_agent, List.getLast?_concat]

/-- In a run, the tool node is only ever entered with a non-empty
`tool_calls` batch on the last message. -/
def goodState (s : RunState) : Prop :=
  s.node = Node.tool → lastToolCalls s.messages ≠ []

/-- After the decision node runs, the router's outcome is decided by the
emptiness of the `tool_calls` the oracle just produced. -/
theorem route_after_llm (oracle : Nat → List Message → String × List ToolCall)
    (n : Nat) (ms : List Message) :
    route_agent (ms ++ [llm_response (oracle n) ms])
      = if ((oracle n (llmInput ms)).2).isEmpty then Route.toEND
        else Route.toToolNode := by
  rw [route_agent_concat]
  simp [route_agent, llm_response]

/-- One superstep preserves `goodState`. -/
theorem goodState_graphStep (oracle : Nat → List Message → String × List ToolCall)
    (wiki ddg : String → Except String String) (s : RunState)
    (h : goodState s) : goodState (graphStep oracle wiki ddg s) := by
  rcases s with ⟨n, nd, ms⟩
  cases nd with
  | llm =>
    intro hnode
    simp only [graphStep] at hnode ⊢
    rw [route_after_llm] at hnode ⊢
    by_cases htcs : ((oracle n (llmInput ms)).2).isEmpty
    · rw [if_pos htcs] at hnode
      simp at hnode
    · rw [if_neg htcs]
      simp only [lastToolCalls, List.getLast?_concat, llm_response]
      simpa [List.isEmpty_iff] using htcs
  | tool =>
    intro hnode
    simp only [graphStep] at hnode
    simp at hnode
  | done =>
    intro hnode
    simp only [graphStep] at hnode
    exact absurd hnode (by simp [h])

/-- Starting from the initial state, every reachable state is good. -/
theorem goodState_stepN (oracle : Nat → List Message → String × List ToolCall)
    (wiki ddg : String → Except String String) (q : String) (k : Nat) :
    goodState (stepN oracle wiki ddg k (initState q)) := by
  induction k with
  | zero =>
    intro hnode
    simp [initState, stepN] at hnode
  | succ k ih =>
    exact goodState_graphStep oracle wiki ddg _ ih

/-- A superstep of a non-terminal good state appends a non-empty batch of
new entries to the conversation and touches nothing already there. -/
theorem graphStep_appends (oracle : Nat → List Message → String × List ToolCall)
    (wiki ddg : String → Except String String) (s : RunState)
    (hgood : goodState s) (hnode : s.node ≠ Node.done) :
    ∃ l, l ≠ [] ∧ (graphStep oracle wiki ddg s).messages = s.messages ++ l := by
  rcases s with ⟨n, nd, ms⟩
  cases nd with
  | llm =>
    refine ⟨[llm_response (oracle n) ms], by simp, ?_⟩
    simp only [graphStep]
    rw [route_after_llm]
    by_cases htcs : ((oracle n (llmInput ms)).2).isEmpty <;> simp [htcs]
  | tool =>
    refine ⟨(tool_node wiki ddg (lastToolCalls ms)).1, ?_, by simp [graphStep]⟩
    have hlen := tool_node_length wiki ddg (lastToolCalls ms)
    have hne : lastToolCalls ms ≠ [] := hgood rfl
    intro hempty
    rw [hempty] at hlen
    exact hne (List.eq_nil_of_length_eq_zero hlen.symm)
  | done => exact absurd rfl hnode

/-- The projection of a run state that ignores the decision-call counter. -/
def projState (s : RunState) : Node × List Message := (s.node, s.messages)

/-- With a decision function that ignores the call index, a superstep is
determined by the projection. -/
theorem graphStep_proj (oracle : Nat → List Message → String × List ToolCall)
    (wiki ddg : String → Except String String)
    (hpure : ∀ i j ms, oracle i ms = oracle j ms) (s t : RunState)
    (h : projState s = projState t) :
    projState (graphStep oracle wiki ddg s)
      = projState (graphStep oracle wiki ddg t) := by
  rcases s with ⟨n, nd, ms⟩
  rcases t with ⟨n', nd', ms'⟩
  simp only [projState, Prod.mk.injEq] at h
  rcases h with ⟨hnd, hms⟩
  subst hnd; subst hms
  cases nd with
  | llm =>
    have hor : oracle n = oracle n' := funext fun ms => hpure n n' ms
    simp only [graphStep, hor]
    rcases route_agent (ms ++ [llm_response (oracle n') ms]) with _ | _ <;>
      simp [projState]
  | tool => simp [graphStep, projState]
  | done => simp [graphStep, projState]

/-- With a pure decision function, `invokeRun` is determined by the
projection of its start state. -/
theorem invokeRun_proj (oracle : Nat → List Message → String × List ToolCall)
    (wiki ddg : String → Except String String)
    (hpure : ∀ i j ms, oracle i ms = oracle j ms) (fuel : Nat) :
    ∀ s t : RunState, projState s = projState t →
    projState (invokeRun oracle wiki ddg fuel s).1
        = projState (invokeRun oracle wiki ddg fuel t).1
      ∧ (invokeRun oracle wiki ddg fuel s).2
        = (invokeRun oracle wiki ddg fuel t).2 := by
  induction fuel with
  | zero =>
    intro s t h
    have hnd : s.node = t.node := congrArg Prod.fst h
    exact ⟨h, by simp [invokeRun, hnd]⟩
  | succ fuel ih =>
    intro s t h
    have hnd : s.node = t.node := congrArg Prod.fst h
    by_cases hdone : s.node = Node.done
    · simp [invokeRun, hdone, hnd ▸ hdone, h, ← hnd, hdone]
    · have hdone' : t.node ≠ Node.done := hnd ▸ hdone
      simp only [invokeRun, if_neg hdone, if_neg hdone']
      exact ih _ _ (graphStep_proj oracle wiki ddg hpure s t h)

/-- The state the verbose stream ends in is the state `invokeRun` ends in
(the verbose stream is the same execution, with its yields recorded). -/
theorem vStreamAux_invokeRun (oracle : Nat → List Message → String × List ToolCall)
    (wiki ddg : String → Except String String) (fuel : Nat) :
    ∀ s : RunState,
    (vStreamAux oracle wiki ddg fuel s).2 = (invokeRun oracle wiki ddg fuel s).1 := by
  induction fuel with
  | zero => intro s; simp [vStreamAux, invokeRun]
  | succ fuel ih =>
    intro s
    by_cases hdone : s.node = Node.done
    · simp [vStreamAux, invokeRun, streamNext, hdone]
    · simp [vStreamAux, invokeRun, streamNext, hdone, ih]

/-- `invokeRun` reports success exactly when its final state is terminal. -/
theorem invokeRun_done_iff (oracle : Nat → List Message → String × List ToolCall)
    (wiki ddg : String → Except String String) (fuel : Nat) :
    ∀ s : RunState,
    (invokeRun oracle wiki ddg fuel s).2 = true
      ↔ (invokeRun oracle wiki ddg fuel s).1.node = Node.done := by
  induction fuel with
  | zero => intro s; simp [invokeRun]
  | succ fuel ih =>
    intro s
    by_cases hdone : s.node = Node.done
    · simp [invokeRun, hdone]
    · simp [invokeRun, hdone, ih]

/-- A superstep at the decision node appends exactly the decision service's
reply, whatever the router decides afterwards. -/
theorem graphStep_llm_messages (oracle : Nat → List Message → String × List ToolCall)
    (wiki ddg : String → Except String String) (n : Nat) (ms : List Message) :
    (graphStep oracle wiki ddg ⟨n, Node.llm, ms⟩).messages
      = ms ++ [llm_response (oracle n) ms] := by
  simp only [graphStep]
  rw [route_after_llm]
  by_cases htcs : ((oracle n (llmInput ms)).2).isEmpty <;> simp [htcs]

/-- A superstep at the tool node appends the dispatcher's results and goes
back to the decision node. -/
theorem graphStep_tool (oracle : Nat → List Message → String × List ToolCall)
    (wiki ddg : String → Except String String) (n : Nat) (ms : List Message) :
    graphStep oracle wiki ddg ⟨n, Node.tool, ms⟩
      = ⟨n, Node.llm, ms ++ (tool_node wiki ddg (lastToolCalls ms)).1⟩ := rfl

/-- The terminal state is a fixed point of the superstep. -/
theorem graphStep_done (oracle : Nat → List Message → String × List ToolCall)
    (wiki ddg : String → Except String String) (s : RunState)
    (h : s.node = Node.done) : graphStep oracle wiki ddg s = s := by
  rcases s with ⟨n, nd, ms⟩
  simp only at h
  subst h
  rfl

/-- Every entry the dispatcher produces is a `ToolResult`. -/
theorem tool_node_results_are_tool (wiki ddg : String → Except String String)
    (calls : List ToolCall) :
    ∀ m ∈ (tool_node wiki ddg calls).1, ∃ c i, m = Message.tool c i := by
  intro m hm
  rw [tool_node_spec] at hm
  have hone : ∀ (f : ToolCall → Message),
      (∀ c, ∃ t i, f c = Message.tool t i) →
      m ∈ calls.map f → ∃ t i, m = Message.tool t i := by
    intro f hf hmem
    rcases List.mem_map.mp hmem with ⟨c, _, rfl⟩
    exact hf c
  split at hm
  · refine hone (fallbackOne wiki ddg) (fun c => ?_) hm
    unfold fallbackOne
    cases capResult wiki ddg c <;> exact ⟨_, _, rfl⟩
  · refine hone (execOne wiki ddg) (fun c => ?_) hm
    unfold execOne
    cases capResult wiki ddg c <;> exact ⟨_, _, rfl⟩

/-- Shape invariant of a run's conversation: the seeded user message,
assistant messages appended by the decision node, and tool results appended
by the dispatcher — nothing else ever enters the state. -/
theorem stepN_message_shapes (oracle : Nat → List Message → String × List ToolCall)
    (wiki ddg : String → Except String String) (q : String) (k : Nat) :
    ∀ m ∈ (stepN oracle wiki ddg k (initState q)).messages,
      m = Message.human q ∨ (∃ c tcs, m = Message.ai c tcs)
        ∨ (∃ c i, m = Message.tool c i) := by
  induction k with
  | zero =>
    intro m hm
    simp [stepN, initState] at hm
    exact Or.inl hm
  | succ k ih =>
    intro m hm
    have hm' : m ∈ (graphStep oracle wiki ddg
        (stepN oracle wiki ddg k (initState q))).messages := hm
    rcases hs : stepN oracle wiki ddg k (initState q) with ⟨n, nd, msgs⟩
    rw [hs] at hm' ih
    cases nd with
    | llm =>
      rw [graphStep_llm_messages] at hm'
      rcases List.mem_append.mp hm' with hmem | hmem
      · exact ih m hmem
      · simp at hmem
        exact Or.inr (Or.inl ⟨_, _, hmem⟩)
    | tool =>
      rw [graphStep_tool] at hm'
      simp only at hm'
      rcases List.mem_append.mp hm' with hmem | hmem
      · exact ih m hmem
      · exact Or.inr (Or.inr (tool_node_results_are_tool wiki ddg _ m hmem))
    | done =>
      rw [graphStep_done oracle wiki ddg _ rfl] at hm'
      exact ih m hm'

/-- A batch with no unregistered name consists of registered requests. -/
theorem hasUnknown_false_iff (l : List ToolCall) :
    hasUnknown l = false ↔ ∀ c ∈ l, registered c = true := by
  simp [hasUnknown]

/-- `takeWhile` over a batch of registered requests followed by an
unregistered one keeps exactly the registered prefix. -/
theorem takeWhile_registered_append (pre : List ToolCall) (c : ToolCall)
    (post : List ToolCall) (hpre : ∀ x ∈ pre, registered x = true)
    (hc : registered c = false) :
    (pre ++ c :: post).takeWhile registered = pre := by
  induction pre with
  | nil => simp [List.takeWhile_cons, hc]
  | cons a pre ih =>
    have ha : registered a = true := hpre a (List.mem_cons_self a pre)
    simp only [List.cons_append, List.takeWhile_cons, ha, if_true]
    rw [ih fun x hx => hpre x (List.mem_cons_of_mem a hx)]

/-! ### Concrete inputs used by closed theorems -/

/-- A decision stub that always requests the encyclopedia tool. -/
def oracleAlwaysTool : Nat → List Message → String × List ToolCall :=
  fun _ _ => ("", [⟨"wikipedia", "q", "c1"⟩])

/-- A decision stub that requests a tool on its first ten calls and only
then produces a final answer. -/
def oracleLate : Nat → List Message → String × List ToolCall :=
  fun i _ => if i < 10 then ("", [⟨"wikipedia", "q", "c1"⟩]) else ("late", [])

/-- A decision stub whose answer depends on which outbound call it is:
`A` on the first call, `B` afterwards. -/
def oracleAB : Nat → List Message → String × List ToolCall :=
  fun i _ => if i = 0 then ("A", []) else ("B", [])

/-- A decision stub that answers directly on every call. -/
def oracleParis : Nat → List Message → String × List ToolCall :=
  fun _ _ => ("Paris", [])

/-- An encyclopedia capability that always succeeds. -/
def wikiOk : String → Except String String := fun _ => Except.ok "W"

/-- A web-search capability that always succeeds. -/
def ddgOk : String → Except String String := fun _ => Except.ok "D"

/-- An encyclopedia capability that always raises. -/
def wikiBoom : String → Except String String := fun _ => Except.error "boom"

/-! ### Claim theorems -/

/-- C2: for every batch of tool-invocation requests, the dispatcher produces
exactly one `ToolResult` per request, in the same order as the requests, with
each result's `toolInvocationId` equal to the corresponding request's `id` —
positionally exact, hence no duplicate and no omitted ids. -/
theorem C2_one_result_per_request (wiki ddg : String → Except String String)
    (calls : List ToolCall) :
    ((tool_node wiki ddg calls).1).map toolResultId
        = calls.map (fun c => some c.id)
    ∧ ((tool_node wiki ddg calls).1).length = calls.length :=
  ⟨tool_node_ids wiki ddg calls, tool_node_length wiki ddg calls⟩

/-- C3: the router is a pure total function of the last conversation entry:
it continues to the tool node exactly when that entry is an assistant message
with a non-empty `tool_calls` sequence, and terminates otherwise — whatever
the entry's content. -/
theorem C3_router_iff (state : List Message) (m : Message)
    (hlast : state.getLast? = some m) :
    (route_agent state = Route.toToolNode
        ↔ ∃ c tcs, m = Message.ai c tcs ∧ tcs ≠ [])
    ∧ (route_agent state = Route.toEND
        ↔ ¬ ∃ c tcs, m = Message.ai c tcs ∧ tcs ≠ []) := by
  have h1 : route_agent state = Route.toToolNode
      ↔ ∃ c tcs, m = Message.ai c tcs ∧ tcs ≠ [] := by
    simp only [route_agent, hlast]
    rcases m with c | ⟨c, tcs⟩ | ⟨c, i⟩
    · simp
    · by_cases he : tcs.isEmpty
      · have hnil : tcs = [] := by simpa [List.isEmpty_iff] using he
        simp [he, hnil]
      · have htcs : tcs ≠ [] := by simpa [List.isEmpty_iff] using he
        simp only [he, if_false]
        simp [he]
        exact ⟨c, tcs, ⟨rfl, rfl⟩, htcs⟩
    · simp
  refine ⟨h1, ?_⟩
  rw [← h1]
  cases route_agent state <;> simp

/-- Witness for C3 at concrete entries: an assistant message with empty
`tool_calls` terminates regardless of its content, a non-assistant entry
terminates, and an assistant message with a request continues. -/
theorem C3_router_iff_witness :
    ([Message.ai "hi" []].getLast? = some (Message.ai "hi" []))
    ∧ route_agent [Message.ai "hi" []] = Route.toEND
    ∧ route_agent [Message.tool "out" "a"] = Route.toEND
    ∧ route_agent [Message.ai "" [⟨"wikipedia", "q", "a"⟩]] = Route.toToolNode :=
  ⟨by simp,
    (C3_router_iff [Message.ai "hi" []] (Message.ai "hi" [])
      (by simp)).2.mpr (by simp),
    (C3_router_iff [Message.tool "out" "a"] (Message.tool "out" "a")
      (by simp)).2.mpr (by simp),
    (C3_router_iff [Message.ai "" [⟨"wikipedia", "q", "a"⟩]]
      (Message.ai "" [⟨"wikipedia", "q", "a"⟩]) (by simp)).1.mpr
      ⟨"", [⟨"wikipedia", "q", "a"⟩], rfl, by simp⟩⟩

/-- C4: in every batch of tool-invocation requests, a request whose
capability invocation fails yields a `ToolResult` whose content is the
error-description string — on whichever dispatch path serves the batch, the
per-tool loop or the generic fallback; the failure is contained (the
dispatcher is a total function returning a full batch of results, one per
request, still correlated by id), and the graph continues from the tool node
back to the decision node. -/
theorem C4_error_isolation (oracle : Nat → List Message → String × List ToolCall)
    (wiki ddg : String → Except String String) (calls : List ToolCall)
    (i : Nat) (h : i < calls.length) (e : String)
    (hfail : capResult wiki ddg calls[i] = Except.error e) :
    ((tool_node wiki ddg calls).1).length = calls.length
    ∧ ((tool_node wiki ddg calls).1)[i]?
        = some (Message.tool ("Error: " ++ e) (calls[i]).id)
    ∧ ((tool_node wiki ddg calls).1).map toolResultId
        = calls.map (fun c => some c.id)
    ∧ ∀ (n : Nat) (ms : List Message),
        (graphStep oracle wiki ddg ⟨n, Node.tool, ms⟩).node = Node.llm := by
  have hres : (tool_node wiki ddg calls).1
      = if hasUnknown calls then toolNodeFallback wiki ddg calls
        else calls.map (execOne wiki ddg) := by
    rw [tool_node_spec]
    split <;> rfl
  refine ⟨tool_node_length wiki ddg calls, ?_, tool_node_ids wiki ddg calls, ?_⟩
  · rw [hres]
    split
    · unfold toolNodeFallback
      rw [List.getElem?_map, List.getElem?_eq_getElem h]
      simp [fallbackOne, hfail]
    · rw [List.getElem?_map, List.getElem?_eq_getElem h]
      simp [execOne, hfail]
  · intro n ms
    rw [graphStep_tool]

/-- Witness for C4: the encyclopedia capability raises on the first request
of a two-request batch; the second request is still served and the graph
continues to the decision node — both in an all-registered batch (per-tool
path) and in a batch that also names an unregistered tool (fallback path). -/
theorem C4_error_isolation_witness :
    capResult wikiBoom ddgOk ⟨"wikipedia", "q", "a"⟩ = Except.error "boom"
    ∧ ((tool_node wikiBoom ddgOk
          [⟨"wikipedia", "q", "a"⟩, ⟨"duckduckgo_search", "q2", "b"⟩]).1).length = 2
    ∧ ((tool_node wikiBoom ddgOk
          [⟨"wikipedia", "q", "a"⟩, ⟨"duckduckgo_search", "q2", "b"⟩]).1)[0]?
        = some (Message.tool ("Error: " ++ "boom") "a")
    ∧ ((tool_node wikiBoom ddgOk
          [⟨"wikipedia", "q", "a"⟩, ⟨"duckduckgo_search", "q2", "b"⟩]).1).map
          toolResultId
        = [some "a", some "b"]
    ∧ ((tool_node wikiBoom ddgOk
          [⟨"wikipedia", "q", "a"⟩, ⟨"unknown_tool", "z", "u"⟩]).1).length = 2
    ∧ ((tool_node wikiBoom ddgOk
          [⟨"wikipedia", "q", "a"⟩, ⟨"unknown_tool", "z", "u"⟩]).1)[0]?
        = some (Message.tool ("Error: " ++ "boom") "a")
    ∧ ((tool_node wikiBoom ddgOk
          [⟨"wikipedia", "q", "a"⟩, ⟨"unknown_tool", "z", "u"⟩]).1).map
          toolResultId
        = [some "a", some "u"]
    ∧ (graphStep oracleAlwaysTool wikiBoom ddgOk
        ⟨0, Node.tool, [Message.human "x"]⟩).node = Node.llm := by
  have T1 := C4_error_isolation oracleAlwaysTool wikiBoom ddgOk
    [⟨"wikipedia", "q", "a"⟩, ⟨"duckduckgo_search", "q2", "b"⟩]
    0 (by decide) "boom" (by decide)
  have T2 := C4_error_isolation oracleAlwaysTool wikiBoom ddgOk
    [⟨"wikipedia", "q", "a"⟩, ⟨"unknown_tool", "z", "u"⟩]
    0 (by decide) "boom" (by decide)
  exact ⟨by decide, T1.1, T1.2.1, T1.2.2.1, T2.1, T2.2.1, T2.2.2.1,
    T1.2.2.2 0 [Message.human "x"]⟩

/-- C5: a request naming an unregistered tool sends the dispatcher to the
generic fallback path, which still produces exactly one `ToolResult` per
request (the unresolved one getting an error-shaped result, never being
dropped), and the graph proceeds from the tool node back to the decision
node without throwing. -/
theorem C5_unregistered_fallback
    (oracle : Nat → List Message → String × List ToolCall)
    (wiki ddg : String → Except String String) (calls : List ToolCall)
    (i : Nat) (h : i < calls.length)
    (hunreg : registered calls[i] = false) :
    (tool_node wiki ddg calls).1 = toolNodeFallback wiki ddg calls
    ∧ ((tool_node wiki ddg calls).1).map toolResultId
        = calls.map (fun c => some c.id)
    ∧ ((tool_node wiki ddg calls).1)[i]?
        = some (Message.tool
            ("Error: " ++ ((calls[i]).name
              ++ " is not a valid tool, try one of [wikipedia, duckduckgo_search]."))
            (calls[i]).id)
    ∧ ∀ (n : Nat) (ms : List Message),
        (graphStep oracle wiki ddg ⟨n, Node.tool, ms⟩).node = Node.llm := by
  have hhu : hasUnknown calls = true := by
    refine List.any_eq_true.mpr ⟨calls[i], List.getElem_mem h, ?_⟩
    simp [hunreg]
  have hres : (tool_node wiki ddg calls).1 = toolNodeFallback wiki ddg calls := by
    rw [tool_node_spec, if_pos hhu]
  have hname : ¬ (calls[i]).name = "wikipedia"
      ∧ ¬ (calls[i]).name = "duckduckgo_search" := by
    simpa [registered] using hunreg
  refine ⟨hres, tool_node_ids wiki ddg calls, ?_, fun n ms => by rw [graphStep_tool]⟩
  rw [hres]
  unfold toolNodeFallback
  rw [List.getElem?_map, List.getElem?_eq_getElem h]
  simp [fallbackOne, capResult, hname.1, hname.2]

/-- Witness for C5: the spec's end-to-end scenario 3, a single request
naming `unknown_tool`. -/
theorem C5_unregistered_fallback_witness :
    registered (⟨"unknown_tool", "z", "u"⟩ : ToolCall) = false
    ∧ (tool_node wikiOk ddgOk [⟨"unknown_tool", "z", "u"⟩]).1
        = toolNodeFallback wikiOk ddgOk [⟨"unknown_tool", "z", "u"⟩]
    ∧ ((tool_node wikiOk ddgOk [⟨"unknown_tool", "z", "u"⟩]).1).map toolResultId
        = [some "u"]
    ∧ ((tool_node wikiOk ddgOk [⟨"unknown_tool", "z", "u"⟩]).1)[0]?
        = some (Message.tool
            ("Error: " ++ ("unknown_tool"
              ++ " is not a valid tool, try one of [wikipedia, duckduckgo_search]."))
            "u")
    ∧ (graphStep oracleAlwaysTool wikiOk ddgOk
        ⟨0, Node.tool, [Message.human "x"]⟩).node = Node.llm := by
  have T := C5_unregistered_fallback oracleAlwaysTool wikiOk ddgOk
    [⟨"unknown_tool", "z", "u"⟩] 0 (by decide) (by decide)
  exact ⟨by decide, T.1, T.2.1, T.2.2.1, T.2.2.2 0 [Message.human "x"]⟩

/-- C6: the conversation state is append-only along every run: after each
superstep the previous conversation is a prefix of the new one (nothing is
removed, replaced or reordered), and as long as the run has not terminated
every superstep strictly increases its length (the decision node appends its
assistant message, the tool node its non-empty batch of tool results). -/
theorem C6_append_only (oracle : Nat → List Message → String × List ToolCall)
    (wiki ddg : String → Except String String) (q : String) (k : Nat) :
    List.IsPrefix (stepN oracle wiki ddg k (initState q)).messages
        (stepN oracle wiki ddg (k + 1) (initState q)).messages
    ∧ ((stepN oracle wiki ddg k (initState q)).node ≠ Node.done →
        (stepN oracle wiki ddg k (initState q)).messages.length
          < (stepN oracle wiki ddg (k + 1) (initState q)).messages.length) := by
  have hgood := goodState_stepN oracle wiki ddg q k
  have hstep : stepN oracle wiki ddg (k + 1) (initState q)
      = graphStep oracle wiki ddg (stepN oracle wiki ddg k (initState q)) := rfl
  by_cases hdone : (stepN oracle wiki ddg k (initState q)).node = Node.done
  · constructor
    · rw [hstep, graphStep_done oracle wiki ddg _ hdone]
    · intro hne
      exact absurd hdone hne
  · obtain ⟨l, hl, happ⟩ :=
      graphStep_appends oracle wiki ddg _ hgood hdone
    constructor
    · rw [hstep, happ]
      exact ⟨l, rfl⟩
    · intro _
      rw [hstep, happ, List.length_append]
      have : 0 < l.length := List.length_pos.mpr hl
      omega

/-- Witness for C6 at a concrete run and step: the first superstep keeps the
seeded user message as a prefix and strictly grows the conversation. -/
theorem C6_append_only_witness :
    List.IsPrefix (stepN oracleParis wikiOk ddgOk 0 (initState "hi")).messages
        (stepN oracleParis wikiOk ddgOk 1 (initState "hi")).messages
    ∧ (stepN oracleParis wikiOk ddgOk 0 (initState "hi")).messages.length
        < (stepN oracleParis wikiOk ddgOk 1 (initState "hi")).messages.length :=
  ⟨(C6_append_only oracleParis wikiOk ddgOk "hi" 0).1,
   (C6_append_only oracleParis wikiOk ddgOk "hi" 0).2 (by decide)⟩

/-- C7 counterexample: in a batch that mixes a successful registered request
with an unregistered name, the dispatcher's fallback path serves the
successful encyclopedia invocation with the bare tool output — without the
source-attribution suffix the claim requires for every successful
invocation. -/
theorem C7_counterexample :
    (tool_node wikiOk ddgOk
        [⟨"wikipedia", "q", "a"⟩, ⟨"nope", "x", "b"⟩]).1
      = [Message.tool "W" "a",
         Message.tool
           "Error: nope is not a valid tool, try one of [wikipedia, duckduckgo_search]."
           "b"]
    ∧ Message.tool "W" "a" ≠ Message.tool ("W" ++ sourceInfo "wikipedia") "a" := by
  decide

/-- C7 as amended: in a batch whose names all resolve, every successful
invocation's `ToolResult` content is the stringified tool output concatenated
with the source-attribution suffix of the answering capability, and the
encyclopedia and web-search attributions are distinct. -/
theorem C7_success_attribution (wiki ddg : String → Except String String)
    (calls : List ToolCall) (i : Nat) (h : i < calls.length) (out : String)
    (hreg : hasUnknown calls = false)
    (hok : capResult wiki ddg calls[i] = Except.ok out) :
    ((tool_node wiki ddg calls).1)[i]?
        = some (Message.tool (out ++ sourceInfo (calls[i]).name) (calls[i]).id)
    ∧ sourceInfo "wikipedia" ≠ sourceInfo "duckduckgo_search" := by
  have hres : (tool_node wiki ddg calls).1 = calls.map (execOne wiki ddg) := by
    rw [tool_node_spec, if_neg (by simp [hreg])]
  constructor
  · rw [hres, List.getElem?_map, List.getElem?_eq_getElem h]
    simp [execOne, hok]
  · simp [sourceInfo]

/-- Witness for the amended C7: a successful encyclopedia invocation in a
fully registered batch carries the Wikipedia attribution. -/
theorem C7_success_attribution_witness :
    hasUnknown [(⟨"wikipedia", "q", "a"⟩ : ToolCall)] = false
    ∧ capResult wikiOk ddgOk (⟨"wikipedia", "q", "a"⟩ : ToolCall) = Except.ok "W"
    ∧ ((tool_node wikiOk ddgOk [⟨"wikipedia", "q", "a"⟩]).1)[0]?
        = some (Message.tool ("W" ++ sourceInfo "wikipedia") "a")
    ∧ sourceInfo "wikipedia" ≠ sourceInfo "duckduckgo_search" := by
  have T := C7_success_attribution wikiOk ddgOk [⟨"wikipedia", "q", "a"⟩] 0
    (by decide) "W" (by decide) (by decide)
  exact ⟨by decide, by decide, T.1, T.2⟩

/-- C9: the decision node prefixes the decision service's input with the
fixed system instruction exactly when the conversation holds a single entry;
the node's update is exactly one assistant message per invocation; and the
system instruction itself never enters the conversation state of a run
(whose user query differs from the instruction text). -/
theorem C9_system_instruction
    (oracle : Nat → List Message → String × List ToolCall)
    (wiki ddg : String → Except String String) (q : String) (k : Nat)
    (dfun : List Message → String × List ToolCall) (ms : List Message)
    (hq : q ≠ system_prompt) :
    (∃ c tcs, llm_agent_node dfun ms = [Message.ai c tcs])
    ∧ (llmInput ms ≠ ms ↔ ms.length = 1)
    ∧ (ms.length = 1 → llmInput ms = Message.human system_prompt :: ms)
    ∧ Message.human system_prompt
        ∉ (stepN oracle wiki ddg k (initState q)).messages := by
  refine ⟨⟨_, _, rfl⟩, ?_, ?_, ?_⟩
  · constructor
    · intro hne
      by_contra hlen
      exact hne (by simp [llmInput, hlen])
    · intro hlen hcontra
      rw [llmInput, if_pos hlen] at hcontra
      have := congrArg List.length hcontra
      simp at this
  · intro hlen
    simp [llmInput, hlen]
  · intro hmem
    rcases stepN_message_shapes oracle wiki ddg q k _ hmem with hh | ⟨c, tcs, hh⟩ | ⟨c, i, hh⟩
    · exact hq (Message.human.inj hh).symm
    · exact Message.noConfusion hh
    · exact Message.noConfusion hh

/-- Witness for C9 at a concrete conversation and run: on the single-entry
conversation the input is prefixed, the update is one assistant message, and
after two supersteps the instruction is still not part of the state. -/
theorem C9_system_instruction_witness :
    ("hi" : String) ≠ system_prompt
    ∧ (∃ c tcs, llm_agent_node (oracleParis 0) [Message.human "hi"]
        = [Message.ai c tcs])
    ∧ llmInput [Message.human "hi"] ≠ [Message.human "hi"]
    ∧ llmInput [Message.human "hi"]
        = Message.human system_prompt :: [Message.human "hi"]
    ∧ Message.human system_prompt
        ∉ (stepN oracleParis wikiOk ddgOk 2 (initState "hi")).messages := by
  have T := C9_system_instruction oracleParis wikiOk ddgOk "hi" 2 (oracleParis 0)
    [Message.human "hi"] (by decide)
  exact ⟨by decide, T.1, T.2.1.mpr (by decide), T.2.2.1 (by decide), T.2.2.2⟩

/-- C10: when a batch consists of registered requests followed by an
unregistered one (and anything after it), the dispatcher returns the generic
fallback's output for the entire batch: the results already collected for
the earlier registered requests are discarded (the capability-invocation log
shows each of them executed twice — once by the per-tool path, once again by
the fallback), and the per-tool path never executes the requests after the
unregistered one (they are invoked only by the fallback, which skips the
unregistered name itself). -/
theorem C10_fallback_discards_and_reexecutes
    (wiki ddg : String → Except String String) (pre : List ToolCall)
    (c : ToolCall) (post : List ToolCall)
    (hpre : hasUnknown pre = false) (hc : registered c = false) :
    tool_node wiki ddg (pre ++ c :: post)
      = (toolNodeFallback wiki ddg (pre ++ c :: post),
         pre.map nameArgs
           ++ (pre.map nameArgs ++ (post.filter registered).map nameArgs)) := by
  have hall : ∀ x ∈ pre, registered x = true := (hasUnknown_false_iff pre).mp hpre
  have hhu : hasUnknown (pre ++ c :: post) = true := by
    refine List.any_eq_true.mpr ⟨c, ?_, by simp [hc]⟩
    simp
  rw [tool_node_spec, if_pos hhu,
    takeWhile_registered_append pre c post hall hc]
  have hfilter : (pre ++ c :: post).filter registered
      = pre ++ post.filter registered := by
    rw [List.filter_append, List.filter_cons_of_neg (by simp [hc]),
      List.filter_eq_self.mpr hall]
  rw [fallbackTrace, hfilter]
  simp

/-- Witness for C10: a registered request, then `unknown_tool`, then another
registered request. -/
theorem C10_fallback_discards_and_reexecutes_witness :
    hasUnknown [(⟨"wikipedia", "q", "a"⟩ : ToolCall)] = false
    ∧ registered (⟨"unknown_tool", "z", "u"⟩ : ToolCall) = false
    ∧ tool_node wikiOk ddgOk
        ([⟨"wikipedia", "q", "a"⟩]
          ++ (⟨"unknown_tool", "z", "u"⟩ : ToolCall)
            :: [⟨"duckduckgo_search", "y", "d"⟩])
      = (toolNodeFallback wikiOk ddgOk
          ([⟨"wikipedia", "q", "a"⟩]
            ++ (⟨"unknown_tool", "z", "u"⟩ : ToolCall)
              :: [⟨"duckduckgo_search", "y", "d"⟩]),
         ([(⟨"wikipedia", "q", "a"⟩ : ToolCall)] : List ToolCall).map nameArgs
           ++ (([(⟨"wikipedia", "q", "a"⟩ : ToolCall)] : List ToolCall).map nameArgs
             ++ (([(⟨"duckduckgo_search", "y", "d"⟩ : ToolCall)] :
                  List ToolCall).filter registered).map nameArgs)) :=
  ⟨by decide, by decide,
    C10_fallback_discards_and_reexecutes wikiOk ddgOk
      [⟨"wikipedia", "q", "a"⟩] ⟨"unknown_tool", "z", "u"⟩
      [⟨"duckduckgo_search", "y", "d"⟩] (by decide) (by decide)⟩

/-- C1 (evaluation of the code at the failing inputs): with a decision stub
that always requests a tool, `run_research_agent` consumes exactly ten
stream yields — counting both node kinds, i.e. only five decision cycles —
prints the maximum-steps warning, and then runs a fresh `app.invoke`
execution that is not bounded by `max_steps` at all: 18 decision-service
calls are made in total, well beyond the configured maximum of 10, and the
reported outcome is the second execution's framework recursion-limit
failure rather than an iteration-limit report. With a stub that answers on
its eleventh call, the warning fires and yet a full final answer is still
reported afterwards, after 11 > 10 decision calls. -/
theorem C1_iteration_cap_not_enforced :
    ((run_research_agent oracleAlwaysTool wikiOk ddgOk "x").warned = true
      ∧ (run_research_agent oracleAlwaysTool wikiOk ddgOk "x").steps.length
          = max_steps
      ∧ (run_research_agent oracleAlwaysTool wikiOk ddgOk "x").decideCallsTotal
          = 18
      ∧ max_steps
          < (run_research_agent oracleAlwaysTool wikiOk ddgOk "x").decideCallsTotal
      ∧ (run_research_agent oracleAlwaysTool wikiOk ddgOk "x").outcome
          = RunOutcome.runError "Error getting final answer: GraphRecursionError")
    ∧ ((run_research_agent oracleLate wikiOk ddgOk "x").warned = true
      ∧ (run_research_agent oracleLate wikiOk ddgOk "x").outcome
          = RunOutcome.answer "late"
      ∧ (run_research_agent oracleLate wikiOk ddgOk "x").decideCallsTotal = 11
      ∧ max_steps
          < (run_research_agent oracleLate wikiOk ddgOk "x").decideCallsTotal) := by
  decide

/-- C8 counterexample: with a decision service whose reply depends on which
outbound call it is (`A` on the first call, `B` on every later one — the
two entry points re-invoke the external service for a second execution),
the verbose entry point emits its progress notifications from the streamed
execution, whose final answer is `A`, yet reports `B`: the final answer of
the second, separate `app.invoke` execution, not of the execution whose
notifications were emitted. -/
theorem C8_counterexample :
    run_research_agent_verbose oracleAB wikiOk ddgOk "q"
      = Except.ok ⟨[Node.llm], "B"⟩
    ∧ lastMessageContent
        ((vStreamAux oracleAB wikiOk ddgOk recursionLimit (initState "q")).2.messages)
      = "A"
    ∧ (run_research_agent oracleAB wikiOk ddgOk "q").outcome
        = RunOutcome.answer "B"
    ∧ ("B" : String) ≠ "A" := by
  decide

/-- C8 as amended: the verbose entry point reports the final result of a
second, fresh execution of the graph on the same initial state; whenever the
decision service is a pure function of the conversation (its reply does not
depend on which call it is) and the run terminates within the framework's
recursion limit, that re-executed result coincides with the streamed
execution's final answer, and the non-verbose entry point reports the same
final result. -/
theorem C8_verbose_pure_equivalence
    (oracle : Nat → List Message → String × List ToolCall)
    (wiki ddg : String → Except String String) (q : String)
    (hpure : ∀ i j ms, oracle i ms = oracle j ms)
    (hterm : (invokeRun oracle wiki ddg recursionLimit (initState q)).2 = true) :
    run_research_agent_verbose oracle wiki ddg q
      = Except.ok ⟨(vStreamAux oracle wiki ddg recursionLimit (initState q)).1,
          lastMessageContent
            ((vStreamAux oracle wiki ddg recursionLimit (initState q)).2.messages)⟩
    ∧ (run_research_agent oracle wiki ddg q).outcome
        = RunOutcome.answer
            (lastMessageContent
              ((vStreamAux oracle wiki ddg recursionLimit (initState q)).2.messages)) := by
  have hvs : (vStreamAux oracle wiki ddg recursionLimit (initState q)).2
      = (invokeRun oracle wiki ddg recursionLimit (initState q)).1 :=
    vStreamAux_invokeRun oracle wiki ddg recursionLimit (initState q)
  have hdone0 : (invokeRun oracle wiki ddg recursionLimit (initState q)).1.node
      = Node.done :=
    (invokeRun_done_iff oracle wiki ddg recursionLimit (initState q)).mp hterm
  have hpro : ∀ cnt : Nat,
      projState (invokeRun oracle wiki ddg recursionLimit
          (⟨cnt, Node.llm, [Message.human q]⟩ : RunState)).1
        = projState (invokeRun oracle wiki ddg recursionLimit (initState q)).1
      ∧ (invokeRun oracle wiki ddg recursionLimit
          (⟨cnt, Node.llm, [Message.human q]⟩ : RunState)).2
        = (invokeRun oracle wiki ddg recursionLimit (initState q)).2 :=
    fun cnt => invokeRun_proj oracle wiki ddg hpure recursionLimit _ _ rfl
  have hmsg : ∀ cnt : Nat,
      (invokeRun oracle wiki ddg recursionLimit
          (⟨cnt, Node.llm, [Message.human q]⟩ : RunState)).1.messages
        = (invokeRun oracle wiki ddg recursionLimit (initState q)).1.messages :=
    fun cnt => congrArg Prod.snd (hpro cnt).1
  have hok : ∀ cnt : Nat,
      (invokeRun oracle wiki ddg recursionLimit
          (⟨cnt, Node.llm, [Message.human q]⟩ : RunState)).2 = true :=
    fun cnt => (hpro cnt).2.trans hterm
  constructor
  · simp only [run_research_agent_verbose]
    rw [hvs, if_pos hdone0, if_pos (hok _), hmsg]
  · simp only [run_research_agent]
    rw [if_pos (hok _)]
    simp only [hvs, hmsg]

/-- Witness for the amended C8: a pure decision stub answering directly. -/
theorem C8_verbose_pure_equivalence_witness :
    (invokeRun oracleParis wikiOk ddgOk recursionLimit (initState "hi")).2 = true
    ∧ (run_research_agent_verbose oracleParis wikiOk ddgOk "hi"
        = Except.ok ⟨(vStreamAux oracleParis wikiOk ddgOk recursionLimit
              (initState "hi")).1,
            lastMessageContent
              ((vStreamAux oracleParis wikiOk ddgOk recursionLimit
                (initState "hi")).2.messages)⟩
      ∧ (run_research_agent oracleParis wikiOk ddgOk "hi").outcome
          = RunOutcome.answer
              (lastMessageContent
                ((vStreamAux oracleParis wikiOk ddgOk recursionLimit
                  (initState "hi")).2.messages))) :=
  ⟨by decide,
    C8_verbose_pure_equivalence oracleParis wikiOk ddgOk "hi"
      (fun _ _ _ => rfl) (by decide)⟩

end Agent
